import Mathlib

/-!
# Verification of the RhymeslikeDimes phonetic rhyme classification engine

Shallow embedding of `backend/app/core/datamuse.py`, `backend/app/core/rhyme_engine.py`
and `backend/app/core/phonemes.py`.

Modelling conventions:
* A phoneme is a `String` (e.g. `"AE1"`); a pronunciation is a `List String`
  (the Python code stores a space-separated string and calls `.split()` on it;
  we work on the split form directly).
* The CMU dictionary (`pronouncing.phones_for_word`) is a parameter
  `dict : String → List (List String)` mapping a word to its pronunciation list
  (empty list = unknown word).  The Datamuse HTTP API is a parameter of type `Api`.
* Python `float` arithmetic is modelled with `ℚ`; the scores involved are small
  rationals (halves, tenths, ratios of phoneme counts) for which binary floating
  point and exact rational comparison agree at every threshold used by the code.
* Exceptions: all embedded operations are total, so the `try/except` fallbacks of
  the Python code are unreachable; where a `try` block can actually fail in Python
  (only the external API calls) the failure is modelled by the parameter returning
  an empty list.
-/

namespace RhymesLikeDimes

/-! ## Python primitives -/

/-- Python `str.split()` (no argument): split on whitespace runs, no empty parts. -/
def pyWords (s : String) : List String :=
  (s.split Char.isWhitespace).filter (· ≠ "")

/-- Python `str.strip(chars)`: remove leading and trailing characters in `chars`. -/
def pyStrip (chars : List Char) (s : String) : String :=
  String.mk (((s.data.dropWhile (· ∈ chars)).reverse.dropWhile (· ∈ chars)).reverse)

/-! ## Model of the `pronouncing` library functions used by the code -/

/-- A phoneme counts as a vowel for the engine when it contains a digit
(`any(char.isdigit() for char in p)` in `datamuse.py`). -/
def isVowelPhoneme (p : String) : Bool :=
  p.data.any Char.isDigit

/-- Number of stress markers (`0`/`1`/`2` characters) in one phoneme;
`pronouncing.syllable_count` counts these over the whole pronunciation string. -/
def stressCount (p : String) : Nat :=
  (p.data.filter (fun c => c = '0' ∨ c = '1' ∨ c = '2')).length

/-- `pronouncing.syllable_count` on a split pronunciation. -/
def syllable_count (phones : List String) : Nat :=
  (phones.map stressCount).sum

/-- Does a phoneme end in a primary or secondary stress marker
(`phones_list[i][-1] in '12'` in `pronouncing.rhyming_part`)? -/
def isStressedVowel (p : String) : Bool :=
  match p.data.getLast? with
  | some c => c = '1' ∨ c = '2'
  | none => false

/-- Suffix of the phoneme list starting at the *last* stressed phoneme,
if any (`pronouncing.rhyming_part` scans indices `len-1, …, 1`). -/
def stressedSuffix : List String → Option (List String)
  | [] => none
  | p :: rest =>
    match stressedSuffix rest with
    | some s => some s
    | none => if isStressedVowel p then some (p :: rest) else none

/-- `pronouncing.rhyming_part`: suffix from the last stressed phoneme at an index
`≥ 1`; if none is found (including when the stressed phoneme sits at index 0),
the whole pronunciation is returned. -/
def rhyming_part (phones : List String) : List String :=
  match phones with
  | [] => []
  | p :: rest =>
    match stressedSuffix rest with
    | some s => s
    | none => p :: rest

/-! ## Phoneme-level helpers of `DatamuseClient._is_perfect_rhyme` -/

/-- Length of the longest common prefix of two lists. -/
def commonPrefixLength : List String → List String → Nat
  | a :: as, b :: bs => if a = b then commonPrefixLength as bs + 1 else 0
  | _, _ => 0

/-- `common_suffix_length` in `_is_perfect_rhyme`: phonemes compared from the end
until the first mismatch. -/
def commonSuffixLength (l1 l2 : List String) : Nat :=
  commonPrefixLength l1.reverse l2.reverse

/-- Consonant phonemes (no digit) of a pronunciation. -/
def consonants (phones : List String) : List String :=
  phones.filter (fun p => !isVowelPhoneme p)

/-- Vowel phonemes (containing a digit) of a pronunciation. -/
def vowels (phones : List String) : List String :=
  phones.filter isVowelPhoneme

/-- Drop a trailing stress digit (`v[:-1] if v[-1].isdigit() else v`). -/
def stripStress (p : String) : String :=
  match p.data.getLast? with
  | some c => if c.isDigit then String.mk p.data.dropLast else p
  | none => p

/-- `ending_consonant_match`: last consonant phonemes equal (false when either
word has no consonants). -/
def endingConsonantMatch (ph1 ph2 : List String) : Bool :=
  match (consonants ph1).getLast?, (consonants ph2).getLast? with
  | some a, some b => a = b
  | _, _ => false

/-- `vowel_assonance`: stress-stripped last vowel phonemes equal (false when
either word has no vowels). -/
def vowelAssonance (ph1 ph2 : List String) : Bool :=
  match (vowels ph1).getLast?, (vowels ph2).getLast? with
  | some a, some b => stripStress a = stripStress b
  | _, _ => false

/-- `rhyme_syllables / syllablesX if syllablesX > 0 else 0` as a rational. -/
def coverage (r s : Nat) : ℚ :=
  if 0 < s then (r : ℚ) / s else 0

/-! ## `DatamuseClient._is_perfect_rhyme` (datamuse.py lines 13-148)

The Python body is a chain of early `return True` statements followed by a
final test / `return False`; each branch below is the disjunction of its
early returns, in source order. -/

/-- Core of `_is_perfect_rhyme`, applied to the primary pronunciation of each
word (after the `if not phones…` guard). -/
def is_perfect_rhyme_phones (ph1 ph2 : List String) : Bool :=
  let r1 := rhyming_part ph1
  let r2 := rhyming_part ph2
  -- `if not rhyme1 or not rhyme2: return False`
  if r1 = [] ∨ r2 = [] then false
  else
  let s1 := syllable_count ph1
  let s2 := syllable_count ph2
  -- `rhyme_syllables` is computed from word1's rhyming part only
  let rs := syllable_count r1
  let csl := commonSuffixLength r1 r2
  let ecm := endingConsonantMatch ph1 ph2
  let va := vowelAssonance ph1 ph2
  if 2 ≤ s1 ∧ 2 ≤ s2 then
    -- multi-syllable logic: cases 1-5
    decide (r1 = r2 ∧ (2 ≤ rs ∨ (rs = 1 ∧ 2 ≤ csl))) ||
    decide (3 ≤ csl) ||
    decide (2 ≤ csl ∧ 3 ≤ min s1 s2) ||
    (ecm && decide ((s1 : ℤ) - s2 ≤ 1 ∧ (s2 : ℤ) - s1 ≤ 1)) ||
    decide ((1 : ℚ)/2 ≤ min (coverage rs s1) (coverage rs s2))
  else if s1 = 1 ∧ s2 = 1 then
    -- single-syllable logic
    decide (r1 = r2 ∧ 2 ≤ r1.length) || ecm || va || decide (2 ≤ csl)
  else
    -- mixed-syllable logic: the `max_syllables <= 4` early returns, then the
    -- unconditional coverage test
    decide (max s1 s2 ≤ 4 ∧ (r1 = r2 ∨ 2 ≤ csl ∨ ecm)) ||
    decide ((3 : ℚ)/5 ≤ min (coverage rs s1) (coverage rs s2))

/-- `DatamuseClient._is_perfect_rhyme`: look up both lowercased words in the
dictionary, fail when either has no pronunciation, then compare the primary
pronunciations. -/
def is_perfect_rhyme (dict : String → List (List String)) (w1 w2 : String) : Bool :=
  match dict w1.toLower, dict w2.toLower with
  | ph1 :: _, ph2 :: _ => is_perfect_rhyme_phones ph1 ph2
  | _, _ => false

/-! ## `RhymeEngine` similarity scorers (rhyme_engine.py lines 250-443) -/

/-- `RhymeEngine._calculate_phonetic_similarity` (lines 250-290). -/
def calculate_phonetic_similarity (dict : String → List (List String))
    (w1 w2 : String) : ℚ :=
  match dict w1.toLower, dict w2.toLower with
  | ph1 :: _, ph2 :: _ =>
    let r1 := rhyming_part ph1
    let r2 := rhyming_part ph2
    if r1 = [] ∨ r2 = [] then 0
    else if r1 = r2 then 1
    else
      let minLen := min r1.length r2.length
      if minLen = 0 then 0 else (commonSuffixLength r1 r2 : ℚ) / minLen
  | _, _ => 0

/-- `RhymeEngine._calculate_consonant_similarity` (lines 370-405).
Note: this function does *not* lowercase its arguments before the lookup. -/
def calculate_consonant_similarity (dict : String → List (List String))
    (w1 w2 : String) : ℚ :=
  match dict w1, dict w2 with
  | ph1 :: _, ph2 :: _ =>
    let c1 := consonants ph1
    let c2 := consonants ph2
    if c1 = [] ∨ c2 = [] then 0
    else
      let endingMatch := c1.getLast? = c2.getLast?
      let inter := (c1.toFinset ∩ c2.toFinset).card
      let uni := (c1.toFinset ∪ c2.toFinset).card
      if uni = 0 then 0
      else
        let ratio : ℚ := (inter : ℚ) / uni
        if endingMatch then min 1 (ratio + 3/10) else ratio
  | _, _ => 0

/-- `RhymeEngine._calculate_vowel_similarity` (lines 407-443).
Note: this function does *not* lowercase its arguments before the lookup. -/
def calculate_vowel_similarity (dict : String → List (List String))
    (w1 w2 : String) : ℚ :=
  match dict w1, dict w2 with
  | ph1 :: _, ph2 :: _ =>
    let v1 := vowels ph1
    let v2 := vowels ph2
    if v1 = [] ∨ v2 = [] then 0
    else if stripStress (v1.getLastD "") = stripStress (v2.getLastD "") then 1
    else
      let set1 := (v1.map stripStress).toFinset
      let set2 := (v2.map stripStress).toFinset
      let inter := (set1 ∩ set2).card
      let uni := (set1 ∪ set2).card
      if uni = 0 then 0 else (inter : ℚ) / uni
  | _, _ => 0

/-- `RhymeEngine._classify_internal_rhyme_strength` (lines 346-368). -/
def classify_internal_rhyme_strength (dict : String → List (List String))
    (w1 w2 : String) : ℚ :=
  if is_perfect_rhyme dict w1 w2 then 1
  else
    min 1 (calculate_phonetic_similarity dict w1 w2 * (1/2)
      + calculate_consonant_similarity dict w1 w2 * (3/10)
      + calculate_vowel_similarity dict w1 w2 * (1/5))

/-- The per-aligned-word-pair scores of `RhymeEngine._score_phrase_similarity`
(lines 221-234): pairs are compared from the end of each phrase inward. -/
def phraseWordScores (dict : String → List (List String))
    (words1 words2 : List String) : List ℚ :=
  (List.range (min words1.length words2.length)).map (fun i =>
    let w1 := words1.getD (words1.length - 1 - i) ""
    let w2 := words2.getD (words2.length - 1 - i) ""
    if is_perfect_rhyme dict w1 w2 then 1 else calculate_phonetic_similarity dict w1 w2)

/-- `RhymeEngine._score_phrase_similarity` (lines 206-248). -/
def score_phrase_similarity (dict : String → List (List String))
    (phrase1 phrase2 : String) : ℚ :=
  let words1 := pyWords phrase1
  let words2 := pyWords phrase2
  let baseScore : ℚ := if words1.length = words2.length then 1/2 else 3/10
  match phraseWordScores dict words1 words2 with
  | [] => 0
  | [s] => min 1 (baseScore + s * (1/2))
  | s :: rest =>
    min 1 (baseScore + (s * (3/5) + (rest.sum / rest.length) * (2/5)) * (1/2))

/-! ## `RhymeEngine._find_phrase_ending_rhymes` (lines 165-204) -/

/-- The three phrase-level rhyme buckets. -/
structure PhraseRhymes where
  perfect : List String
  near : List String
  slant : List String
deriving DecidableEq

/-- `if candidate not in bucket: bucket.append(candidate)`. -/
def appendIfNew (l : List String) (x : String) : List String :=
  if x ∈ l then l else l ++ [x]

/-- The last `k` words of a phrase, rejoined (`" ".join(words[-k:])`). -/
def phraseEnding (ws : List String) (k : Nat) : String :=
  String.intercalate " " (ws.drop (ws.length - k))

/-- One ending-length comparison step of `_find_phrase_ending_rhymes`
(lines 180-198): `k` is the ending length, `candidate` the phrase being
classified. -/
def phraseEndingStep (dict : String → List (List String)) (targetWords : List String)
    (candidate : String) (candidateWords : List String)
    (acc : PhraseRhymes) (k : Nat) : PhraseRhymes :=
  let targetEnding := phraseEnding targetWords k
  let candidateEnding := phraseEnding candidateWords k
  if targetEnding.toLower = candidateEnding.toLower then acc
  else
    let score := score_phrase_similarity dict targetEnding candidateEnding
    if (4:ℚ)/5 ≤ score then { acc with perfect := appendIfNew acc.perfect candidate }
    else if (3:ℚ)/5 ≤ score then { acc with near := appendIfNew acc.near candidate }
    else if (2:ℚ)/5 ≤ score then { acc with slant := appendIfNew acc.slant candidate }
    else acc

/-- Processing of one candidate phrase by `_find_phrase_ending_rhymes`:
ending lengths `1 .. min(3, len(target_words), len(candidate_words))`. -/
def phraseEndingCandidate (dict : String → List (List String)) (targetPhrase : String)
    (targetWords : List String) (acc : PhraseRhymes) (candidate : String) : PhraseRhymes :=
  if candidate.toLower = targetPhrase.toLower then acc
  else
    let candidateWords := pyWords candidate
    (List.range (min 3 (min targetWords.length candidateWords.length))).foldl
      (fun a k0 => phraseEndingStep dict targetWords candidate candidateWords a (k0 + 1)) acc

/-- `RhymeEngine._find_phrase_ending_rhymes` (lines 165-204). -/
def find_phrase_ending_rhymes (dict : String → List (List String))
    (targetPhrase : String) (candidatePhrases : List String) (maxResults : Nat) : PhraseRhymes :=
  let targetWords := pyWords targetPhrase
  let r := candidatePhrases.foldl (phraseEndingCandidate dict targetPhrase targetWords) ⟨[], [], []⟩
  ⟨r.perfect.take maxResults, r.near.take maxResults, r.slant.take maxResults⟩

/-! ## `RhymeEngine._find_internal_rhymes` (lines 292-344) -/

/-- The characters stripped from word edges: `word.strip(".,!?'\"")`. -/
def punctChars : List Char := ['.', ',', '!', '?', '\'', '"']

/-- One internal rhyme hit (the `rhyme_info` dict of line 320). -/
structure InternalHit where
  word1 : String
  word2 : String
  position1 : Nat
  position2 : Nat
  strength : ℚ
  pattern : String
deriving DecidableEq

/-- The three buckets of internal rhyme hits. -/
structure InternalRhymes where
  perfect : List InternalHit
  near : List InternalHit
  slant : List InternalHit
deriving DecidableEq

/-- Candidate hit for one ordered pair of word positions `(i, j)`; `none` when the
pair is skipped (`i >= j`, a cleaned token shorter than 2, or strength `≤ 0.3`). -/
def internalHitAt (dict : String → List (List String)) (ws : List String)
    (i j : Nat) : Option InternalHit :=
  if j ≤ i then none
  else
    let w1 := ws.getD i ""
    let w2 := ws.getD j ""
    let clean1 := (pyStrip punctChars w1).toLower
    let clean2 := (pyStrip punctChars w2).toLower
    if clean1.length < 2 ∨ clean2.length < 2 then none
    else
      let strength := classify_internal_rhyme_strength dict clean1 clean2
      if (3:ℚ)/10 < strength then
        some ⟨w1, w2, i, j, strength, clean1 ++ " → " ++ clean2⟩
      else none

/-- Sort a bucket by descending strength (`sorted(key=strength, reverse=True)`,
a stable sort, modelled by the stable `List.mergeSort`). -/
def sortByStrengthDesc (l : List InternalHit) : List InternalHit :=
  l.mergeSort (fun a b => b.strength ≤ a.strength)

/-- The stream of retained hits produced by the double loop of
`_find_internal_rhymes` (lines 304-334), in loop order. -/
def internalRhymeHits (dict : String → List (List String)) (text : String) :
    List InternalHit :=
  let ws := (pyWords text).take 15
  (List.range ws.length).flatMap (fun i =>
    (List.range ws.length).filterMap (fun j => internalHitAt dict ws i j))

/-- `RhymeEngine._find_internal_rhymes` (lines 292-344).  The Python loop appends
each retained hit to exactly one of the three buckets according to its strength
(`>= 0.8` / `>= 0.6` / otherwise); filtering the hit stream by the same bands
yields the same buckets in the same order. -/
def find_internal_rhymes (dict : String → List (List String))
    (text : String) (maxResults : Nat) : InternalRhymes :=
  let hits := internalRhymeHits dict text
  let perfect := hits.filter (fun h => (4:ℚ)/5 ≤ h.strength)
  let near := hits.filter (fun h => (3:ℚ)/5 ≤ h.strength ∧ h.strength < 4/5)
  let slant := hits.filter (fun h => h.strength < 3/5)
  ⟨(sortByStrengthDesc perfect).take maxResults,
   (sortByStrengthDesc near).take maxResults,
   (sortByStrengthDesc slant).take maxResults⟩

/-! ## `DatamuseClient` result assembly (datamuse.py lines 150-337)

The Datamuse HTTP API is external; it is modelled as a record of query
functions, one per query parameter used by the code (`rel_rhy`, `rel_nry`,
`sl`, `sp`), each taking the query string and the `max` parameter and returning
the word list extracted from the response. -/

structure Api where
  rel_rhy : String → Nat → List String
  rel_nry : String → Nat → List String
  sl : String → Nat → List String
  sp : String → Nat → List String

/-- `DatamuseClient.get_rhymes` (lines 197-227): dispatch on the rhyme type;
unknown types (and API failures) yield `[]`. -/
def get_rhymes (api : Api) (phrase rhymeType : String) (maxResults : Nat) : List String :=
  if rhymeType = "perfect" then api.rel_rhy phrase maxResults
  else if rhymeType = "near" then api.rel_nry phrase maxResults
  else if rhymeType = "slant" then api.sl phrase maxResults
  else []

/-- The hand-tuned prefix list of `get_multi_word_rhymes` (lines 243-249). -/
def common_prefixes : List String :=
  ["made", "take", "came", "late", "hate", "gate", "date", "rate", "wait", "state",
   "stayed", "played", "delayed", "displayed", "betrayed", "conveyed", "surveyed",
   "blue", "new", "true", "threw", "grew", "knew", "flew", "drew", "few", "view",
   "break", "make", "take", "fake", "wake", "shake", "cake", "lake", "snake",
   "said", "red", "bed", "head", "dead", "led", "fed", "thread", "spread", "bread"]

/-- `DatamuseClient.get_multi_word_rhymes` (lines 229-284).  The Python loops
append candidates in order and break out as soon as `max_results` entries have
been collected, then truncate with `[:max_results]`; that is extensionally the
first `max_results` elements of the un-truncated candidate streams, modelled
here by `take` over the two concatenated streams. -/
def get_multi_word_rhymes (api : Api) (phrase : String) (maxResults : Nat) : List String :=
  let words := pyWords phrase
  if words.length < 2 then []
  else
    let lastWord := words.getLastD ""
    let rhymingWords := get_rhymes api lastWord ("perfect") 15
    let prefixCandidates := rhymingWords.flatMap (fun rw =>
      if rw.toLower = lastWord.toLower then []
      else common_prefixes.filterMap (fun p =>
        let candidate := p ++ " " ++ rw
        if candidate.toLower ≠ phrase.toLower then some candidate else none))
    let phraseCandidates := (rhymingWords.take 5).flatMap (fun rw =>
      (api.sp ("* " ++ rw) 10).filter (fun w => w.contains ' ' ∧ w.toLower ≠ phrase.toLower))
    (prefixCandidates ++ phraseCandidates).take maxResults

/-- The per-candidate test of `DatamuseClient._classify_rhymes` (lines 162-189):
multi-word phrases are compared through their last words. -/
def classifyTest (dict : String → List (List String)) (original candidate : String) : Bool :=
  let origWords := pyWords original
  let candWords := pyWords candidate
  if 1 < origWords.length ∧ 1 < candWords.length then
    is_perfect_rhyme dict (origWords.getLastD "") (candWords.getLastD "")
  else if 1 < origWords.length then
    is_perfect_rhyme dict (origWords.getLastD "") candidate
  else if 1 < candWords.length then
    is_perfect_rhyme dict original (candWords.getLastD "")
  else
    is_perfect_rhyme dict original candidate

/-- The word-level rhyme buckets returned by the Datamuse client. -/
structure RhymeBuckets where
  perfect : List String
  near : List String
  slant : List String
deriving DecidableEq

/-- `DatamuseClient._classify_rhymes` (lines 150-195): skip candidates equal to
the original (case-insensitively), put each remaining candidate into `perfect`
or `near` according to `classifyTest`; nothing is ever appended to `slant`.
The Python loop appends each kept candidate to exactly one bucket; filtering
the candidate list by the same predicates yields the same buckets. -/
def classify_rhymes (dict : String → List (List String))
    (original : String) (candidates : List String) : RhymeBuckets :=
  let kept := candidates.filter (fun c => c.toLower ≠ original.toLower)
  ⟨kept.filter (fun c => classifyTest dict original c),
   kept.filter (fun c => !classifyTest dict original c),
   []⟩

/-- The case-insensitive first-seen deduplication of `get_all_rhyme_types`
(lines 319-325); `seen` collects the lowercased forms already emitted. -/
def dedupCaseInsensitive (candidates : List String) : List String :=
  (candidates.foldl (fun (acc : List String × List String) c =>
    if c.toLower ∈ acc.2 then acc else (acc.1 ++ [c], acc.2 ++ [c.toLower])) ([], [])).1

/-- `DatamuseClient.get_all_rhyme_types` (lines 286-337). -/
def get_all_rhyme_types (api : Api) (dict : String → List (List String))
    (phrase : String) (maxPerType : Nat) : RhymeBuckets :=
  let datamusePerfect := get_rhymes api phrase ("perfect") (maxPerType * 2)
  let datamuseNear := get_rhymes api phrase ("near") (maxPerType * 2)
  let datamuseSlant := get_rhymes api phrase ("slant") maxPerType
  let allCandidates := datamusePerfect ++ datamuseNear
  let allCandidates :=
    if phrase.contains ' ' then
      let words := pyWords phrase
      if words ≠ [] then
        allCandidates ++ get_rhymes api (words.getLastD "") ("perfect") (maxPerType * 2)
          ++ get_multi_word_rhymes api phrase maxPerType
      else allCandidates
    else allCandidates
  let classified := classify_rhymes dict phrase (dedupCaseInsensitive allCandidates)
  let slantAll := classified.slant ++ datamuseSlant.filter (fun s => s.toLower ≠ phrase.toLower)
  ⟨classified.perfect.take maxPerType, classified.near.take maxPerType, slantAll.take maxPerType⟩

/-! ## `RhymeEngine.analyze_bar` (rhyme_engine.py lines 27-163)

`analyze_bar` builds a Python dict mapping each fragment's text to a result
dict with keys `perfect`, `near`, `slant`, `span`, to which
`_add_multi_word_phrase_rhymes` later adds `phrase_perfect` / `phrase_near` /
`phrase_slant` keys when non-empty.  The entry is modelled as a structure with
the phrase buckets defaulting to `[]` (= key absent), and the dict as an
association list with Python-dict insertion semantics (assignment to an
existing key replaces the value in place, otherwise appends).  The
`_internal_rhymes` side channel is kept in a separate component of the result
pair. -/

structure FragEntry where
  perfect : List String
  near : List String
  slant : List String
  phrasePerfect : List String := []
  phraseNear : List String := []
  phraseSlant : List String := []
  span : Nat × Nat
deriving DecidableEq

/-- Python dict assignment `d[k] = v` on an association list. -/
def dictInsert (l : List (String × FragEntry)) (k : String) (v : FragEntry) :
    List (String × FragEntry) :=
  if l.any (fun kv => kv.1 = k) then
    l.map (fun kv => if kv.1 = k then (k, v) else kv)
  else l ++ [(k, v)]

/-- Python in-place update of the value stored at an existing key. -/
def dictUpdate (l : List (String × FragEntry)) (k : String) (f : FragEntry → FragEntry) :
    List (String × FragEntry) :=
  l.map (fun kv => if kv.1 = k then (k, f kv.2) else kv)

/-- `RhymeEngine.sliding_ngrams` (lines 27-43). -/
def sliding_ngrams (words : List String) (nMax : Nat) : List (Nat × Nat × String) :=
  (List.range (min nMax words.length)).flatMap (fun n0 =>
    let n := n0 + 1
    (List.range (words.length - n + 1)).map (fun i =>
      (i, i + n, String.intercalate " " ((words.drop i).take n))))

/-- The base per-fragment entry built in the `analyze_bar` loop (lines 65-82):
Datamuse buckets filtered against the fragment's own text, case-insensitively. -/
def baseFragEntry (api : Api) (dict : String → List (List String))
    (phrase : String) (maxResults : Nat) (span : Nat × Nat) : FragEntry :=
  let rhymes := get_all_rhyme_types api dict phrase maxResults
  let phraseLower := phrase.toLower
  { perfect := rhymes.perfect.filter (fun r => r.toLower ≠ phraseLower)
    near := rhymes.near.filter (fun r => r.toLower ≠ phraseLower)
    slant := rhymes.slant.filter (fun r => r.toLower ≠ phraseLower)
    span := span }

/-- `RhymeEngine._add_multi_word_phrase_rhymes` (lines 129-163): for each of the
first 20 multi-word fragment texts, attach the non-empty phrase-ending buckets
computed against that same list. -/
def add_multi_word_phrase_rhymes (dict : String → List (List String))
    (results : List (String × FragEntry)) (maxResults : Nat) :
    List (String × FragEntry) :=
  let multiWordPhrases := ((results.map Prod.fst).filter
    (fun p => 2 ≤ (pyWords p).length)).take 20
  multiWordPhrases.foldl (fun acc phrase =>
    let pr := find_phrase_ending_rhymes dict phrase multiWordPhrases maxResults
    dictUpdate acc phrase (fun e =>
      { e with
        phrasePerfect := if pr.perfect ≠ [] then pr.perfect else e.phrasePerfect
        phraseNear := if pr.near ≠ [] then pr.near else e.phraseNear
        phraseSlant := if pr.slant ≠ [] then pr.slant else e.phraseSlant })) results

/-- The sort key of `RhymeEngine._sort_results_by_base_word` (lines 117-123):
`(lowercased first word, word count)`. -/
def sortKey (item : String × FragEntry) : String × Nat :=
  let ws := pyWords item.1
  ((ws.headD "").toLower, ws.length)

/-- Lexicographic comparison of sort keys (Python tuple `<=`). -/
def sortKeyLe (a b : String × Nat) : Bool :=
  a.1 < b.1 ∨ (a.1 = b.1 ∧ a.2 ≤ b.2)

/-- `RhymeEngine._sort_results_by_base_word` (lines 109-127); Python's `sorted`
is a stable sort, modelled by the stable `List.mergeSort`. -/
def sort_results_by_base_word (results : List (String × FragEntry)) :
    List (String × FragEntry) :=
  results.mergeSort (fun x y => sortKeyLe (sortKey x) (sortKey y))

/-- `RhymeEngine.analyze_bar` (lines 45-107), on the success path (no exception
is raised by the enhancements, so with the flag initially true both
enhancements run; the Python `_internal_rhymes` key is the second component).
An empty bar returns the empty result. -/
def analyze_bar (api : Api) (dict : String → List (List String))
    (bar : String) (maxResults : Nat) (ngramMax : Nat) :
    List (String × FragEntry) × InternalRhymes :=
  let words := pyWords bar
  if words = [] then ([], ⟨[], [], []⟩)
  else
    let results := (sliding_ngrams words ngramMax).foldl (fun acc sne =>
      dictInsert acc sne.2.2 (baseFragEntry api dict sne.2.2 maxResults (sne.1, sne.2.1))) []
    let enhanced := add_multi_word_phrase_rhymes dict results maxResults
    let internal := find_internal_rhymes dict bar maxResults
    (sort_results_by_base_word enhanced, internal)

/-! ## `PhonemesManager.get_phones` (phonemes.py lines 28-47) and the
enhancement flag of `RhymeEngine` (rhyme_engine.py lines 24-25, 86-104) -/

/-- `PhonemesManager.get_phones`: normalize, consult the override store first,
fall back to the dictionary.  The override store is the loaded
`overrides.json` mapping. -/
def get_phones (overrides : String → Option (List (List String)))
    (dict : String → List (List String)) (word : String) : List (List String) :=
  let normalized := word.toLower.trim
  match overrides normalized with
  | some l => l
  | none => dict normalized

/-- Modelled from the spec: §4.3 "Both words are looked up via 4.1" — the
pairwise classifier as the spec describes it, obtaining pronunciations through
`get_phones` (override store consulted before the dictionary).  The code's
classifier (`is_perfect_rhyme`) instead calls the dictionary directly; this
definition exists to compare the two. -/
def is_perfect_rhyme_via_lookup (overrides : String → Option (List (List String)))
    (dict : String → List (List String)) (w1 w2 : String) : Bool :=
  match get_phones overrides dict w1, get_phones overrides dict w2 with
  | ph1 :: _, ph2 :: _ => is_perfect_rhyme_phones ph1 ph2
  | _, _ => false

/-- The mutable engine state relevant to the enhancement control flow:
`self.enhanced_features_enabled`, set to `True` in `__init__` (line 25). -/
structure EngineState where
  enhanced_features_enabled : Bool
deriving DecidableEq

/-- `RhymeEngine.__init__` (lines 18-25). -/
def initEngineState : EngineState := ⟨true⟩

/-- Which enhancements actually ran during one `analyze_bar` call. -/
structure CallTrace where
  ranMultiWord : Bool
  ranInternal : Bool
deriving DecidableEq

/-- The enhancement control flow of one `analyze_bar` call (lines 86-104):
if the flag is set, run the multi-word phrase enhancement; when it raises
(`multiWordFails`), clear `self.enhanced_features_enabled` (line 93); the
internal rhyme detection then runs only if the flag is still set (line 96).
The function returns the state left in the engine *instance* after the call
together with what ran during the call. -/
def analyzeBarEnhancementStep (st : EngineState) (multiWordFails : Bool) :
    EngineState × CallTrace :=
  if st.enhanced_features_enabled then
    if multiWordFails then (⟨false⟩, ⟨true, false⟩)
    else (st, ⟨true, true⟩)
  else (st, ⟨false, false⟩)

/-! ## Concrete instances used for witnesses and counterexamples -/

/-- The empty dictionary: every word unknown. -/
def dict0 : String → List (List String) := fun _ => []

/-- A dictionary knowing only `cat` and `bat` (CMU pronunciations). -/
def dictCatBat : String → List (List String) := fun w =>
  if w = "cat" then [["K", "AE1", "T"]]
  else if w = "bat" then [["B", "AE1", "T"]]
  else []

/-- Pronunciation with a two-syllable rhyming part (`AE1 B OW0`). -/
def phTwoSylRhyme : List String := ["T", "AE1", "B", "OW0"]

/-- Pronunciation of a three-syllable word with a one-syllable rhyming part. -/
def phOneSylRhyme : List String := ["K", "AH0", "L", "IH0", "D", "EH1", "M"]

/-- A dictionary pairing the two pronunciations above. -/
def dictAsym : String → List (List String) := fun w =>
  if w = "worda" then [phTwoSylRhyme]
  else if w = "wordb" then [phOneSylRhyme]
  else []

/-- An API returning no candidates at all. -/
def apiEmpty : Api := ⟨fun _ _ => [], fun _ _ => [], fun _ _ => [], fun _ _ => []⟩

/-- An API whose slant feed returns `cat` and nothing else. -/
def apiSlantCat : Api := ⟨fun _ _ => [], fun _ _ => [], fun _ _ => ["cat"], fun _ _ => []⟩

/-- An API whose perfect feed returns `cat` and nothing else. -/
def apiPerfectCat : Api := ⟨fun _ _ => ["cat"], fun _ _ => [], fun _ _ => [], fun _ _ => []⟩

/-- An API whose slant feed returns `dog` and nothing else. -/
def apiSlantDog : Api := ⟨fun _ _ => [], fun _ _ => [], fun _ _ => ["dog"], fun _ _ => []⟩

/-- An override store giving `cat` a pronunciation that does not rhyme with `bat`. -/
def overridesCat : String → Option (List (List String)) := fun w =>
  if w = "cat" then some [["K", "IY1"]] else none

/-- The empty override store. -/
def overridesNone : String → Option (List (List String)) := fun _ => none

/-- The internal rhyme hit produced for the line `cat bat` under `dictCatBat`. -/
def hitCatBat : InternalHit :=
  { word1 := "cat", word2 := "bat", position1 := 0, position2 := 1,
    strength := 1, pattern := "cat → bat" }

/-- Membership band used to state the phrase-ending bucket soundness: candidate
`c` has some ending length `k` whose non-identical endings score in
`[lo, hi)` (no upper bound when `hi = none`). -/
def PhraseBand (dict : String → List (List String)) (target c : String)
    (lo : ℚ) (hi : Option ℚ) : Prop :=
  ∃ k, 1 ≤ k ∧ k ≤ min 3 (min (pyWords target).length (pyWords c).length) ∧
    (phraseEnding (pyWords target) k).toLower ≠ (phraseEnding (pyWords c) k).toLower ∧
    lo ≤ score_phrase_similarity dict (phraseEnding (pyWords target) k)
      (phraseEnding (pyWords c) k) ∧
    ∀ u ∈ hi, score_phrase_similarity dict (phraseEnding (pyWords target) k)
      (phraseEnding (pyWords c) k) < u

/-- Invariant carried through the folds of `find_phrase_ending_rhymes`. -/
def PhraseInv (dict : String → List (List String)) (target : String)
    (acc : PhraseRhymes) : Prop :=
  (∀ c ∈ acc.perfect, c.toLower ≠ target.toLower ∧
    PhraseBand dict target c ((4:ℚ)/5) none) ∧
  (∀ c ∈ acc.near, c.toLower ≠ target.toLower ∧
    PhraseBand dict target c ((3:ℚ)/5) (some ((4:ℚ)/5))) ∧
  (∀ c ∈ acc.slant, c.toLower ≠ target.toLower ∧
    PhraseBand dict target c ((2:ℚ)/5) (some ((3:ℚ)/5)))

/-- The C7 invariant for one entry of the analysis result: no bucket of the
entry contains the fragment's own text, case-insensitively. -/
def EntryOk (kv : String × FragEntry) : Prop :=
  ∀ e : String,
    (e ∈ kv.2.perfect ∨ e ∈ kv.2.near ∨ e ∈ kv.2.slant ∨
     e ∈ kv.2.phrasePerfect ∨ e ∈ kv.2.phraseNear ∨ e ∈ kv.2.phraseSlant) →
    e.toLower ≠ kv.1.toLower

/-- The entry produced for the one-word bar `cat` under `apiSlantDog`/`dict0`. -/
def entryCatSlantDog : FragEntry :=
  { perfect := [], near := [], slant := ["dog"], span := (0, 1) }

/-! ## Helper lemmas -/

theorem commonPrefixLength_comm (l1 l2 : List String) :
    commonPrefixLength l1 l2 = commonPrefixLength l2 l1 := by
  induction l1 generalizing l2 with
  | nil => cases l2 <;> rfl
  | cons a as ih =>
    cases l2 with
    | nil => rfl
    | cons b bs =>
      by_cases h : a = b
      · subst h; simp [commonPrefixLength, ih]
      · have h' : ¬b = a := fun e => h e.symm
        simp [commonPrefixLength, h, h']

theorem commonSuffixLength_comm (l1 l2 : List String) :
    commonSuffixLength l1 l2 = commonSuffixLength l2 l1 := by
  unfold commonSuffixLength
  exact commonPrefixLength_comm _ _

theorem endingConsonantMatch_comm (ph1 ph2 : List String) :
    endingConsonantMatch ph1 ph2 = endingConsonantMatch ph2 ph1 := by
  unfold endingConsonantMatch
  cases (consonants ph1).getLast? <;> cases (consonants ph2).getLast? <;>
    simp [eq_comm]

theorem vowelAssonance_comm (ph1 ph2 : List String) :
    vowelAssonance ph1 ph2 = vowelAssonance ph2 ph1 := by
  unfold vowelAssonance
  cases (vowels ph1).getLast? <;> cases (vowels ph2).getLast? <;>
    simp [eq_comm]

set_option maxHeartbeats 1600000 in
theorem is_perfect_rhyme_phones_comm (ph1 ph2 : List String)
    (h : syllable_count (rhyming_part ph1) = syllable_count (rhyming_part ph2)) :
    is_perfect_rhyme_phones ph1 ph2 = is_perfect_rhyme_phones ph2 ph1 := by
  have ecsl : commonSuffixLength (rhyming_part ph1) (rhyming_part ph2)
      = commonSuffixLength (rhyming_part ph2) (rhyming_part ph1) :=
    commonSuffixLength_comm _ _
  have eecm : endingConsonantMatch ph1 ph2 = endingConsonantMatch ph2 ph1 :=
    endingConsonantMatch_comm _ _
  have eva : vowelAssonance ph1 ph2 = vowelAssonance ph2 ph1 :=
    vowelAssonance_comm _ _
  simp only [is_perfect_rhyme_phones]
  by_cases h0 : rhyming_part ph1 = [] ∨ rhyming_part ph2 = []
  · rw [if_pos h0, if_pos h0.symm]
  · rw [if_neg h0,
      if_neg (show ¬(rhyming_part ph2 = [] ∨ rhyming_part ph1 = []) from fun hc => h0 hc.symm)]
    have hrc : rhyming_part ph1 = rhyming_part ph2 ↔ rhyming_part ph2 = rhyming_part ph1 :=
      eq_comm
    by_cases hb : 2 ≤ syllable_count ph1 ∧ 2 ≤ syllable_count ph2
    · rw [if_pos hb, if_pos (And.intro hb.2 hb.1)]
      rw [← ecsl, ← eecm, ← h, min_comm (syllable_count ph2) (syllable_count ph1),
        min_comm (coverage (syllable_count (rhyming_part ph1)) (syllable_count ph2))
          (coverage (syllable_count (rhyming_part ph1)) (syllable_count ph1))]
      have hi : (syllable_count ph1 : ℤ) - syllable_count ph2 ≤ 1 ∧
          (syllable_count ph2 : ℤ) - syllable_count ph1 ≤ 1 ↔
          (syllable_count ph2 : ℤ) - syllable_count ph1 ≤ 1 ∧
          (syllable_count ph1 : ℤ) - syllable_count ph2 ≤ 1 := and_comm
      rw [Bool.eq_iff_iff]
      simp only [Bool.or_eq_true, Bool.and_eq_true, decide_eq_true_iff]
      tauto
    · rw [if_neg hb,
        if_neg (show ¬(2 ≤ syllable_count ph2 ∧ 2 ≤ syllable_count ph1) from
          fun hc => hb (And.intro hc.2 hc.1))]
      by_cases h1 : syllable_count ph1 = 1 ∧ syllable_count ph2 = 1
      · rw [if_pos h1, if_pos (And.intro h1.2 h1.1)]
        rw [← ecsl, ← eecm, ← eva]
        have hlen : rhyming_part ph1 = rhyming_part ph2 ∧ 2 ≤ (rhyming_part ph1).length ↔
            rhyming_part ph2 = rhyming_part ph1 ∧ 2 ≤ (rhyming_part ph2).length :=
          ⟨fun hc => ⟨hc.1.symm, hc.1 ▸ hc.2⟩, fun hc => ⟨hc.1.symm, hc.1 ▸ hc.2⟩⟩
        rw [Bool.eq_iff_iff]
        simp only [Bool.or_eq_true, decide_eq_true_iff]
        tauto
      · rw [if_neg h1,
          if_neg (show ¬(syllable_count ph2 = 1 ∧ syllable_count ph1 = 1) from
            fun hc => h1 (And.intro hc.2 hc.1))]
        rw [← ecsl, ← eecm, ← h, max_comm (syllable_count ph2) (syllable_count ph1),
          min_comm (coverage (syllable_count (rhyming_part ph1)) (syllable_count ph2))
            (coverage (syllable_count (rhyming_part ph1)) (syllable_count ph1))]
        rw [Bool.eq_iff_iff]
        simp only [Bool.or_eq_true, decide_eq_true_iff]
        tauto

theorem calculate_phonetic_similarity_comm (dict : String → List (List String))
    (w1 w2 : String) :
    calculate_phonetic_similarity dict w1 w2 = calculate_phonetic_similarity dict w2 w1 := by
  unfold calculate_phonetic_similarity
  rcases e1 : dict w1.toLower with _ | ⟨p1, l1⟩ <;>
    rcases e2 : dict w2.toLower with _ | ⟨p2, l2⟩ <;> simp only []
  by_cases h0 : rhyming_part p1 = [] ∨ rhyming_part p2 = []
  · rw [if_pos h0, if_pos h0.symm]
  · rw [if_neg h0,
      if_neg (show ¬(rhyming_part p2 = [] ∨ rhyming_part p1 = []) from fun hc => h0 hc.symm)]
    by_cases he : rhyming_part p1 = rhyming_part p2
    · rw [if_pos he, if_pos he.symm]
    · rw [if_neg he,
        if_neg (show ¬rhyming_part p2 = rhyming_part p1 from fun hc => he hc.symm),
        commonSuffixLength_comm (rhyming_part p2) (rhyming_part p1),
        min_comm (rhyming_part p2).length (rhyming_part p1).length]

theorem calculate_consonant_similarity_comm (dict : String → List (List String))
    (w1 w2 : String) :
    calculate_consonant_similarity dict w1 w2 = calculate_consonant_similarity dict w2 w1 := by
  unfold calculate_consonant_similarity
  rcases e1 : dict w1 with _ | ⟨p1, l1⟩ <;>
    rcases e2 : dict w2 with _ | ⟨p2, l2⟩ <;> simp only []
  by_cases h0 : consonants p1 = [] ∨ consonants p2 = []
  · rw [if_pos h0, if_pos h0.symm]
  · rw [if_neg h0,
      if_neg (show ¬(consonants p2 = [] ∨ consonants p1 = []) from fun hc => h0 hc.symm),
      Finset.inter_comm (consonants p2).toFinset (consonants p1).toFinset,
      Finset.union_comm (consonants p2).toFinset (consonants p1).toFinset]
    by_cases he : (consonants p1).getLast? = (consonants p2).getLast?
    · rw [if_pos he, if_pos he.symm]
    · rw [if_neg he,
        if_neg (show ¬(consonants p2).getLast? = (consonants p1).getLast? from
          fun hc => he hc.symm)]

theorem calculate_vowel_similarity_comm (dict : String → List (List String))
    (w1 w2 : String) :
    calculate_vowel_similarity dict w1 w2 = calculate_vowel_similarity dict w2 w1 := by
  unfold calculate_vowel_similarity
  rcases e1 : dict w1 with _ | ⟨p1, l1⟩ <;>
    rcases e2 : dict w2 with _ | ⟨p2, l2⟩ <;> simp only []
  by_cases h0 : vowels p1 = [] ∨ vowels p2 = []
  · rw [if_pos h0, if_pos h0.symm]
  · rw [if_neg h0,
      if_neg (show ¬(vowels p2 = [] ∨ vowels p1 = []) from fun hc => h0 hc.symm)]
    by_cases he : stripStress ((vowels p1).getLastD "") = stripStress ((vowels p2).getLastD "")
    · rw [if_pos he, if_pos he.symm]
    · rw [if_neg he,
        if_neg (show ¬stripStress ((vowels p2).getLastD "") = stripStress ((vowels p1).getLastD "")
          from fun hc => he hc.symm),
        Finset.inter_comm ((vowels p2).map stripStress).toFinset ((vowels p1).map stripStress).toFinset,
        Finset.union_comm ((vowels p2).map stripStress).toFinset ((vowels p1).map stripStress).toFinset]

theorem is_perfect_rhyme_comm_of (dict : String → List (List String)) (w1 w2 : String)
    (h : ∀ p1 l1 p2 l2, dict w1.toLower = p1 :: l1 → dict w2.toLower = p2 :: l2 →
      syllable_count (rhyming_part p1) = syllable_count (rhyming_part p2)) :
    is_perfect_rhyme dict w1 w2 = is_perfect_rhyme dict w2 w1 := by
  unfold is_perfect_rhyme
  rcases e1 : dict w1.toLower with _ | ⟨p1, l1⟩ <;>
    rcases e2 : dict w2.toLower with _ | ⟨p2, l2⟩ <;> simp only []
  exact is_perfect_rhyme_phones_comm p1 p2 (h p1 l1 p2 l2 e1 e2)

theorem classify_rhymes_slant (dict : String → List (List String))
    (orig : String) (cands : List String) :
    (classify_rhymes dict orig cands).slant = [] := rfl

theorem get_rhymes_slant (api : Api) (p : String) (m : Nat) :
    get_rhymes api p ("slant") m = api.sl p m := rfl

theorem mem_classify_rhymes_perfect (dict : String → List (List String))
    (orig : String) (cands : List String) (c : String)
    (hc : c ∈ (classify_rhymes dict orig cands).perfect) :
    classifyTest dict orig c = true ∧ c.toLower ≠ orig.toLower := by
  unfold classify_rhymes at hc
  simp only [] at hc
  rcases List.mem_filter.1 hc with ⟨hkept, htest⟩
  rcases List.mem_filter.1 hkept with ⟨_, hne⟩
  exact ⟨htest, by simpa using hne⟩

theorem mem_classify_rhymes_near (dict : String → List (List String))
    (orig : String) (cands : List String) (c : String)
    (hc : c ∈ (classify_rhymes dict orig cands).near) :
    classifyTest dict orig c = false ∧ c.toLower ≠ orig.toLower := by
  unfold classify_rhymes at hc
  simp only [] at hc
  rcases List.mem_filter.1 hc with ⟨hkept, htest⟩
  rcases List.mem_filter.1 hkept with ⟨_, hne⟩
  exact ⟨by simpa using htest, by simpa using hne⟩

/-! ## Claim theorems -/

/-- C2: for pronunciations with rhyming parts where both words have exactly one
syllable, the pair is classified Perfect exactly when the rhyming parts are
equal and have at least two phonemes, or the ending consonants match, or the
stress-stripped last vowels match, or the common phoneme suffix of the rhyming
parts has length at least two; otherwise NotPerfect. -/
theorem C2_single_syllable_regime (ph1 ph2 : List String)
    (hr1 : rhyming_part ph1 ≠ []) (hr2 : rhyming_part ph2 ≠ [])
    (hs1 : syllable_count ph1 = 1) (hs2 : syllable_count ph2 = 1) :
    is_perfect_rhyme_phones ph1 ph2 = true ↔
      (rhyming_part ph1 = rhyming_part ph2 ∧ 2 ≤ (rhyming_part ph1).length) ∨
      endingConsonantMatch ph1 ph2 = true ∨
      vowelAssonance ph1 ph2 = true ∨
      2 ≤ commonSuffixLength (rhyming_part ph1) (rhyming_part ph2) := by
  have h0 : ¬(rhyming_part ph1 = [] ∨ rhyming_part ph2 = []) := by tauto
  have hm : ¬(2 ≤ syllable_count ph1 ∧ 2 ≤ syllable_count ph2) := by omega
  simp only [is_perfect_rhyme_phones, if_neg h0, if_neg hm, if_pos (And.intro hs1 hs2)]
  simp only [Bool.or_eq_true, decide_eq_true_iff]
  tauto

/-- C2 witness: `cat`/`bat` pronunciations satisfy the hypotheses and the
single-syllable characterization. -/
theorem C2_witness :
    is_perfect_rhyme_phones ["K", "AE1", "T"] ["B", "AE1", "T"] = true ↔
      (rhyming_part ["K", "AE1", "T"] = rhyming_part ["B", "AE1", "T"] ∧
        2 ≤ (rhyming_part ["K", "AE1", "T"]).length) ∨
      endingConsonantMatch ["K", "AE1", "T"] ["B", "AE1", "T"] = true ∨
      vowelAssonance ["K", "AE1", "T"] ["B", "AE1", "T"] = true ∨
      2 ≤ commonSuffixLength (rhyming_part ["K", "AE1", "T"]) (rhyming_part ["B", "AE1", "T"]) :=
  C2_single_syllable_regime ["K", "AE1", "T"] ["B", "AE1", "T"]
    (by with_unfolding_all decide) (by with_unfolding_all decide)
    (by with_unfolding_all decide) (by with_unfolding_all decide)

/-- C1 counterexample: the pronunciations of `muffin` (`M AH1 F AH0 N`, two
syllables) and `cat` (`K AE1 T`, one syllable) are in the mixed regime with
`max(syllables) = 2 ≤ 4`; their rhyming parts differ, the common suffix of the
rhyming parts is shorter than two phonemes, and the ending consonants differ
(`N` vs `T`), so the claim says NotPerfect — yet the code classifies the pair
Perfect (it falls through to the coverage test, which passes because the first
word's rhyming part spans two syllables). -/
theorem C1_counterexample :
    2 ≤ syllable_count ["M", "AH1", "F", "AH0", "N"] ∧
    syllable_count ["K", "AE1", "T"] = 1 ∧
    rhyming_part ["M", "AH1", "F", "AH0", "N"] ≠ [] ∧
    rhyming_part ["K", "AE1", "T"] ≠ [] ∧
    max (syllable_count ["M", "AH1", "F", "AH0", "N"]) (syllable_count ["K", "AE1", "T"]) ≤ 4 ∧
    rhyming_part ["M", "AH1", "F", "AH0", "N"] ≠ rhyming_part ["K", "AE1", "T"] ∧
    commonSuffixLength (rhyming_part ["M", "AH1", "F", "AH0", "N"])
      (rhyming_part ["K", "AE1", "T"]) < 2 ∧
    endingConsonantMatch ["M", "AH1", "F", "AH0", "N"] ["K", "AE1", "T"] = false ∧
    is_perfect_rhyme_phones ["M", "AH1", "F", "AH0", "N"] ["K", "AE1", "T"] = true := by
  with_unfolding_all decide

/-- C1 (amended): in the mixed regime, when `max(syllables) ≤ 4` the pair is
Perfect exactly when the rhyming parts are equal, or the common suffix has
length ≥ 2, or the ending consonants match, **or the coverage test
`min(coverage1, coverage2) ≥ 0.6` passes** (the code always falls through to
the coverage test); when `max(syllables) > 4` Perfect exactly when the
coverage test passes.  Coverage is computed from the *first* word's
rhyming-part syllable count over each word's total syllable count. -/
theorem C1_mixed_regime (ph1 ph2 : List String)
    (hr1 : rhyming_part ph1 ≠ []) (hr2 : rhyming_part ph2 ≠ [])
    (hmix : (syllable_count ph1 = 1 ∧ 2 ≤ syllable_count ph2) ∨
      (2 ≤ syllable_count ph1 ∧ syllable_count ph2 = 1)) :
    is_perfect_rhyme_phones ph1 ph2 = true ↔
      (if max (syllable_count ph1) (syllable_count ph2) ≤ 4 then
        rhyming_part ph1 = rhyming_part ph2 ∨
        2 ≤ commonSuffixLength (rhyming_part ph1) (rhyming_part ph2) ∨
        endingConsonantMatch ph1 ph2 = true ∨
        (3 : ℚ)/5 ≤ min (coverage (syllable_count (rhyming_part ph1)) (syllable_count ph1))
          (coverage (syllable_count (rhyming_part ph1)) (syllable_count ph2))
      else
        (3 : ℚ)/5 ≤ min (coverage (syllable_count (rhyming_part ph1)) (syllable_count ph1))
          (coverage (syllable_count (rhyming_part ph1)) (syllable_count ph2))) := by
  have h0 : ¬(rhyming_part ph1 = [] ∨ rhyming_part ph2 = []) := by tauto
  have hm1 : ¬(2 ≤ syllable_count ph1 ∧ 2 ≤ syllable_count ph2) := by omega
  have hm2 : ¬(syllable_count ph1 = 1 ∧ syllable_count ph2 = 1) := by omega
  simp only [is_perfect_rhyme_phones, if_neg h0, if_neg hm1, if_neg hm2]
  by_cases h4 : max (syllable_count ph1) (syllable_count ph2) ≤ 4
  · rw [if_pos h4]
    simp only [Bool.or_eq_true, decide_eq_true_iff]
    tauto
  · rw [if_neg h4]
    simp only [Bool.or_eq_true, decide_eq_true_iff]
    tauto

/-- C1 witness: `love` (`L AH1 V`) and `above` (`AH0 B AH1 V`) satisfy the
mixed-regime hypotheses, and the amended characterization holds for them. -/
theorem C1_witness :
    is_perfect_rhyme_phones ["L", "AH1", "V"] ["AH0", "B", "AH1", "V"] = true ↔
      (if max (syllable_count ["L", "AH1", "V"]) (syllable_count ["AH0", "B", "AH1", "V"]) ≤ 4 then
        rhyming_part ["L", "AH1", "V"] = rhyming_part ["AH0", "B", "AH1", "V"] ∨
        2 ≤ commonSuffixLength (rhyming_part ["L", "AH1", "V"]) (rhyming_part ["AH0", "B", "AH1", "V"]) ∨
        endingConsonantMatch ["L", "AH1", "V"] ["AH0", "B", "AH1", "V"] = true ∨
        (3 : ℚ)/5 ≤ min
          (coverage (syllable_count (rhyming_part ["L", "AH1", "V"]))
            (syllable_count ["L", "AH1", "V"]))
          (coverage (syllable_count (rhyming_part ["L", "AH1", "V"]))
            (syllable_count ["AH0", "B", "AH1", "V"]))
      else
        (3 : ℚ)/5 ≤ min
          (coverage (syllable_count (rhyming_part ["L", "AH1", "V"]))
            (syllable_count ["L", "AH1", "V"]))
          (coverage (syllable_count (rhyming_part ["L", "AH1", "V"]))
            (syllable_count ["AH0", "B", "AH1", "V"]))) :=
  C1_mixed_regime ["L", "AH1", "V"] ["AH0", "B", "AH1", "V"]
    (by with_unfolding_all decide) (by with_unfolding_all decide)
    (Or.inl (by with_unfolding_all decide))

/-- C10 counterexample: the classifier and the internal rhyme strength are not
symmetric.  With `worda` pronounced `T AE1 B OW0` (two syllables, two-syllable
rhyming part) and `wordb` pronounced `K AH0 L IH0 D EH1 M` (three syllables,
one-syllable rhyming part), `(worda, wordb)` is classified Perfect (coverage is
computed from the first word's rhyming part) but `(wordb, worda)` is not, and
the internal rhyme strengths are `1` and `0` respectively. -/
theorem C10_counterexample :
    is_perfect_rhyme_phones phTwoSylRhyme phOneSylRhyme = true ∧
    is_perfect_rhyme_phones phOneSylRhyme phTwoSylRhyme = false ∧
    is_perfect_rhyme dictAsym ("worda") ("wordb") = true ∧
    is_perfect_rhyme dictAsym ("wordb") ("worda") = false ∧
    classify_internal_rhyme_strength dictAsym ("worda") ("wordb") = 1 ∧
    classify_internal_rhyme_strength dictAsym ("wordb") ("worda") = 0 := by
  with_unfolding_all decide

/-- C10 (amended): all similarity components are symmetric, and the
classification and internal rhyme strength are symmetric *whenever the two
words' rhyming parts have equal syllable counts* (in particular whenever the
rhyming parts are equal); the asymmetry of the code comes only from the
coverage tests, which use the first word's rhyming-part syllable count. -/
theorem C10_symmetry :
    (∀ ph1 ph2 : List String,
      syllable_count (rhyming_part ph1) = syllable_count (rhyming_part ph2) →
      is_perfect_rhyme_phones ph1 ph2 = is_perfect_rhyme_phones ph2 ph1) ∧
    (∀ (dict : String → List (List String)) (w1 w2 : String),
      (∀ p1 l1 p2 l2, dict w1.toLower = p1 :: l1 → dict w2.toLower = p2 :: l2 →
        syllable_count (rhyming_part p1) = syllable_count (rhyming_part p2)) →
      is_perfect_rhyme dict w1 w2 = is_perfect_rhyme dict w2 w1 ∧
      classify_internal_rhyme_strength dict w1 w2
        = classify_internal_rhyme_strength dict w2 w1) := by
  refine ⟨is_perfect_rhyme_phones_comm, fun dict w1 w2 h => ?_⟩
  have hp := is_perfect_rhyme_comm_of dict w1 w2 h
  refine ⟨hp, ?_⟩
  unfold classify_internal_rhyme_strength
  rw [hp, calculate_phonetic_similarity_comm, calculate_consonant_similarity_comm,
    calculate_vowel_similarity_comm]

/-- C10 witness: the symmetry theorem applied to `cat`/`bat` under the
two-entry dictionary. -/
theorem C10_witness :
    is_perfect_rhyme dictCatBat ("cat") ("bat") = is_perfect_rhyme dictCatBat ("bat") ("cat") ∧
    classify_internal_rhyme_strength dictCatBat ("cat") ("bat")
      = classify_internal_rhyme_strength dictCatBat ("bat") ("cat") := by
  refine C10_symmetry.2 dictCatBat ("cat") ("bat") ?_
  intro p1 l1 p2 l2 e1 e2
  have hc : dictCatBat (String.toLower ("cat")) = [["K", "AE1", "T"]] := by
    with_unfolding_all rfl
  have hb : dictCatBat (String.toLower ("bat")) = [["B", "AE1", "T"]] := by
    with_unfolding_all rfl
  rw [hc] at e1
  rw [hb] at e2
  injection e1 with e1a _
  injection e2 with e2a _
  rw [← e1a, ← e2a]
  with_unfolding_all decide

/-- C4 (code bug in the code, claim states the spec's intent): when the
multi-word phrase enhancement fails during a call, the engine instance's
`enhanced_features_enabled` flag is cleared and *never reset*, so a subsequent
`analyze_bar` call on the same instance runs neither enhancement — the failure
state persists across calls, contrary to the claim. -/
theorem C4_flag_persists :
    (analyzeBarEnhancementStep initEngineState true).2.ranMultiWord = true ∧
    (analyzeBarEnhancementStep initEngineState true).1.enhanced_features_enabled = false ∧
    (analyzeBarEnhancementStep
      (analyzeBarEnhancementStep initEngineState true).1 false).2.ranMultiWord = false ∧
    (analyzeBarEnhancementStep
      (analyzeBarEnhancementStep initEngineState true).1 false).2.ranInternal = false ∧
    (analyzeBarEnhancementStep
      (analyzeBarEnhancementStep initEngineState true).1 false).1.enhanced_features_enabled
      = false := by
  decide

/-- C8 counterexample: `cat` has an override entry (`K IY1`), yet the
classifier (which calls the dictionary directly) still classifies
`(cat, bat)` from the dictionary pronunciation: it answers Perfect, while the
spec's override-respecting lookup classifier answers NotPerfect.  The override
does not determine the classification. -/
theorem C8_counterexample :
    overridesCat ("cat") = some [["K", "IY1"]] ∧
    is_perfect_rhyme dictCatBat ("cat") ("bat") = true ∧
    is_perfect_rhyme_via_lookup overridesCat dictCatBat ("cat") ("bat") = false := by
  with_unfolding_all decide

/-- C8 (amended): the classifier ignores the override store entirely — it
agrees with the §4.1-based lookup classifier only when neither word has an
override entry (and the lowercased words carry no surrounding whitespace,
since `get_phones` additionally trims). -/
theorem C8_override_ignored (overrides : String → Option (List (List String)))
    (dict : String → List (List String)) (w1 w2 : String)
    (h1 : overrides w1.toLower.trim = none) (h2 : overrides w2.toLower.trim = none)
    (t1 : w1.toLower.trim = w1.toLower) (t2 : w2.toLower.trim = w2.toLower) :
    is_perfect_rhyme_via_lookup overrides dict w1 w2 = is_perfect_rhyme dict w1 w2 := by
  simp only [is_perfect_rhyme_via_lookup, get_phones, is_perfect_rhyme]
  rw [h1, h2, t1, t2]

/-- C8 witness: with the empty override store the two classifiers agree on
`cat`/`bat`. -/
theorem C8_witness :
    is_perfect_rhyme_via_lookup overridesNone dictCatBat ("cat") ("bat")
      = is_perfect_rhyme dictCatBat ("cat") ("bat") :=
  C8_override_ignored overridesNone dictCatBat ("cat") ("bat")
    (by with_unfolding_all rfl) (by with_unfolding_all rfl)
    (by with_unfolding_all rfl) (by with_unfolding_all rfl)

/-- C6 counterexample: for the pair `aa`/`bb`, neither of which has a
pronunciation, the pairwise classifier correctly returns NotPerfect and the
word-level similarity functions return 0 — but the phrase similarity scorer
(also a similarity-scoring function, reachable with these words as one-word
phrase endings) returns its base score `0.5`, not `0`. -/
theorem C6_counterexample :
    dict0 ("aa") = [] ∧ dict0 ("bb") = [] ∧
    is_perfect_rhyme dict0 ("aa") ("bb") = false ∧
    score_phrase_similarity dict0 ("aa") ("bb") = 1/2 := by
  with_unfolding_all decide

/-- C6 (amended): when either word has no dictionary entry, the classifier
returns NotPerfect and the four word-level similarity scorers return 0 (and
being total functions they never raise); the phrase-ending scorer, however,
degrades to its base score: for two single words it returns `0.5`. -/
theorem C6_lookup_miss (dict : String → List (List String)) (w1 w2 : String)
    (h : (dict w1 = [] ∧ dict w1.toLower = []) ∨ (dict w2 = [] ∧ dict w2.toLower = [])) :
    is_perfect_rhyme dict w1 w2 = false ∧
    calculate_phonetic_similarity dict w1 w2 = 0 ∧
    calculate_consonant_similarity dict w1 w2 = 0 ∧
    calculate_vowel_similarity dict w1 w2 = 0 ∧
    classify_internal_rhyme_strength dict w1 w2 = 0 ∧
    (pyWords w1 = [w1] → pyWords w2 = [w2] →
      score_phrase_similarity dict w1 w2 = 1/2) := by
  have hperf : is_perfect_rhyme dict w1 w2 = false := by
    unfold is_perfect_rhyme
    rcases h with ⟨_, hb⟩ | ⟨_, hb⟩
    · rw [hb]
    · rw [hb]
      rcases dict w1.toLower with _ | ⟨p1, l1⟩ <;> rfl
  have hphon : calculate_phonetic_similarity dict w1 w2 = 0 := by
    unfold calculate_phonetic_similarity
    rcases h with ⟨_, hb⟩ | ⟨_, hb⟩
    · rw [hb]
    · rw [hb]
      rcases dict w1.toLower with _ | ⟨p1, l1⟩ <;> rfl
  have hcons : calculate_consonant_similarity dict w1 w2 = 0 := by
    unfold calculate_consonant_similarity
    rcases h with ⟨ha, _⟩ | ⟨ha, _⟩
    · rw [ha]
    · rw [ha]
      rcases dict w1 with _ | ⟨p1, l1⟩ <;> rfl
  have hvow : calculate_vowel_similarity dict w1 w2 = 0 := by
    unfold calculate_vowel_similarity
    rcases h with ⟨ha, _⟩ | ⟨ha, _⟩
    · rw [ha]
    · rw [ha]
      rcases dict w1 with _ | ⟨p1, l1⟩ <;> rfl
  have hstr : classify_internal_rhyme_strength dict w1 w2 = 0 := by
    unfold classify_internal_rhyme_strength
    rw [hperf, hphon, hcons, hvow]
    norm_num
  refine ⟨hperf, hphon, hcons, hvow, hstr, fun hw1 hw2 => ?_⟩
  unfold score_phrase_similarity phraseWordScores
  rw [hw1, hw2]
  simp [hperf, hphon]
  norm_num

/-- C6 witness: the amended statement evaluated at `aa`/`bb` with the empty
dictionary. -/
theorem C6_witness :
    is_perfect_rhyme dict0 ("aa") ("bb") = false ∧
    score_phrase_similarity dict0 ("aa") ("bb") = 1/2 :=
  ⟨(C6_lookup_miss dict0 ("aa") ("bb") (Or.inl ⟨rfl, rfl⟩)).1,
   (C6_lookup_miss dict0 ("aa") ("bb") (Or.inl ⟨rfl, rfl⟩)).2.2.2.2.2
     (by with_unfolding_all decide) (by with_unfolding_all decide)⟩

/-- C3 counterexample: with a provider whose slant feed returns `cat` for the
query `bat`, the candidate `cat` appears under Slant in the result although
the engine's own phonetic classification of `cat` against `bat` is Perfect —
the slant bucket placement is taken on trust from the provider. -/
theorem C3_counterexample :
    (get_all_rhyme_types apiSlantCat dictCatBat ("bat") 7).slant = ["cat"] ∧
    (get_all_rhyme_types apiSlantCat dictCatBat ("bat") 7).perfect = [] ∧
    classifyTest dictCatBat ("bat") ("cat") = true ∧
    is_perfect_rhyme dictCatBat ("bat") ("cat") = true := by
  with_unfolding_all decide

/-- C3 (amended): candidates from the perfect/near (and multi-word) provider
feeds are re-classified by the engine's own phonetic test into Perfect vs
Near; but the Slant bucket is exactly the provider's slant feed, only filtered
against the query phrase (case-insensitively) and truncated — those candidates
are not validated phonetically. -/
theorem C3_revalidation (api : Api) (dict : String → List (List String))
    (phrase : String) (m : Nat) :
    (∀ c ∈ (get_all_rhyme_types api dict phrase m).perfect,
      classifyTest dict phrase c = true ∧ c.toLower ≠ phrase.toLower) ∧
    (∀ c ∈ (get_all_rhyme_types api dict phrase m).near,
      classifyTest dict phrase c = false ∧ c.toLower ≠ phrase.toLower) ∧
    (get_all_rhyme_types api dict phrase m).slant
      = ((api.sl phrase m).filter (fun s => s.toLower ≠ phrase.toLower)).take m := by
  refine ⟨?_, ?_, ?_⟩
  · intro c hc
    unfold get_all_rhyme_types at hc
    simp only [] at hc
    exact mem_classify_rhymes_perfect dict phrase _ c (List.mem_of_mem_take hc)
  · intro c hc
    unfold get_all_rhyme_types at hc
    simp only [] at hc
    exact mem_classify_rhymes_near dict phrase _ c (List.mem_of_mem_take hc)
  · unfold get_all_rhyme_types
    simp only []
    rw [classify_rhymes_slant, List.nil_append, get_rhymes_slant]

/-- C3 witness: with a provider whose perfect feed returns `cat` for the query
`bat`, `cat` lands in the Perfect bucket and indeed passes the engine's own
test. -/
theorem C3_witness :
    classifyTest dictCatBat ("bat") ("cat") = true ∧
    ("cat" : String).toLower ≠ ("bat" : String).toLower :=
  (C3_revalidation apiPerfectCat dictCatBat ("bat") 7).1 ("cat")
    (by with_unfolding_all decide)

theorem internalHitAt_some (dict : String → List (List String)) (ws : List String)
    (i j : Nat) (h : InternalHit) (e : internalHitAt dict ws i j = some h) :
    i < j ∧ h.position1 = i ∧ h.position2 = j ∧
    h.word1 = ws.getD i "" ∧ h.word2 = ws.getD j "" ∧
    2 ≤ ((pyStrip punctChars h.word1).toLower).length ∧
    2 ≤ ((pyStrip punctChars h.word2).toLower).length ∧
    (3:ℚ)/10 < h.strength := by
  unfold internalHitAt at e
  by_cases h1 : j ≤ i
  · rw [if_pos h1] at e; cases e
  · rw [if_neg h1] at e
    simp only [] at e
    by_cases h2 : ((pyStrip punctChars (ws.getD i "")).toLower).length < 2 ∨
        ((pyStrip punctChars (ws.getD j "")).toLower).length < 2
    · rw [if_pos h2] at e; cases e
    · rw [if_neg h2] at e
      by_cases h3 : (3:ℚ)/10 < classify_internal_rhyme_strength dict
          ((pyStrip punctChars (ws.getD i "")).toLower)
          ((pyStrip punctChars (ws.getD j "")).toLower)
      · rw [if_pos h3] at e
        injection e with e
        subst e
        push_neg at h2
        exact ⟨by omega, rfl, rfl, rfl, rfl, h2.1, h2.2, h3⟩
      · rw [if_neg h3] at e; cases e

theorem mem_internalRhymeHits (dict : String → List (List String)) (text : String)
    (h : InternalHit) (hm : h ∈ internalRhymeHits dict text) :
    h.position1 < h.position2 ∧ h.position2 < min 15 (pyWords text).length ∧
    2 ≤ ((pyStrip punctChars h.word1).toLower).length ∧
    2 ≤ ((pyStrip punctChars h.word2).toLower).length ∧
    (3:ℚ)/10 < h.strength := by
  unfold internalRhymeHits at hm
  simp only [] at hm
  rcases List.mem_flatMap.1 hm with ⟨i, _, hji⟩
  rcases List.mem_filterMap.1 hji with ⟨j, hj, he⟩
  have hj' : j < ((pyWords text).take 15).length := List.mem_range.1 hj
  rcases internalHitAt_some dict _ i j h he with ⟨hij, e1, e2, _, _, hl1, hl2, hs⟩
  refine ⟨by omega, ?_, hl1, hl2, hs⟩
  rw [e2]
  have := List.length_take 15 (pyWords text)
  omega

theorem sortByStrengthDesc_sorted (l : List InternalHit) :
    List.Sorted (fun a b : InternalHit => b.strength ≤ a.strength)
      (sortByStrengthDesc l) := by
  have hp := @List.sorted_mergeSort InternalHit
    (fun a b : InternalHit => decide (b.strength ≤ a.strength))
    (fun a b c hab hbc => by
      simp only [decide_eq_true_eq] at *
      exact le_trans hbc hab)
    (fun a b => by
      simp only [Bool.or_eq_true, decide_eq_true_eq]
      exact le_total b.strength a.strength)
    l
  exact hp.imp (fun hab => of_decide_eq_true hab)

theorem mem_sortByStrengthDesc (l : List InternalHit) (h : InternalHit) :
    h ∈ sortByStrengthDesc l ↔ h ∈ l := List.mem_mergeSort

/-- C9 helper: every member of a bucket of `find_internal_rhymes` comes from
the hit stream. -/
theorem mem_find_internal_rhymes (dict : String → List (List String))
    (text : String) (maxResults : Nat) (h : InternalHit)
    (hm : h ∈ (find_internal_rhymes dict text maxResults).perfect ∨
      h ∈ (find_internal_rhymes dict text maxResults).near ∨
      h ∈ (find_internal_rhymes dict text maxResults).slant) :
    h ∈ internalRhymeHits dict text := by
  unfold find_internal_rhymes at hm
  simp only [] at hm
  rcases hm with hm | hm | hm <;>
    exact List.mem_filter.1 ((mem_sortByStrengthDesc _ h).1 (List.mem_of_mem_take hm)) |>.1

theorem find_internal_rhymes_perfect (dict : String → List (List String))
    (text : String) (maxResults : Nat) :
    (find_internal_rhymes dict text maxResults).perfect
      = (sortByStrengthDesc ((internalRhymeHits dict text).filter
          (fun h => (4:ℚ)/5 ≤ h.strength))).take maxResults := rfl

theorem find_internal_rhymes_near (dict : String → List (List String))
    (text : String) (maxResults : Nat) :
    (find_internal_rhymes dict text maxResults).near
      = (sortByStrengthDesc ((internalRhymeHits dict text).filter
          (fun h => (3:ℚ)/5 ≤ h.strength ∧ h.strength < 4/5))).take maxResults := rfl

theorem find_internal_rhymes_slant (dict : String → List (List String))
    (text : String) (maxResults : Nat) :
    (find_internal_rhymes dict text maxResults).slant
      = (sortByStrengthDesc ((internalRhymeHits dict text).filter
          (fun h => h.strength < 3/5))).take maxResults := rfl

/-- C9: every reported internal rhyme hit has `position1 < position2 <
min(15, word count of the line)`, both punctuation-stripped tokens have length
at least 2, and strength strictly greater than 0.3; each bucket is sorted by
descending strength and holds at most the requested number of hits. -/
theorem C9_internal_rhyme_invariants (dict : String → List (List String))
    (text : String) (maxResults : Nat) :
    (∀ h : InternalHit,
      (h ∈ (find_internal_rhymes dict text maxResults).perfect ∨
       h ∈ (find_internal_rhymes dict text maxResults).near ∨
       h ∈ (find_internal_rhymes dict text maxResults).slant) →
      h.position1 < h.position2 ∧ h.position2 < min 15 (pyWords text).length ∧
      2 ≤ ((pyStrip punctChars h.word1).toLower).length ∧
      2 ≤ ((pyStrip punctChars h.word2).toLower).length ∧
      (3:ℚ)/10 < h.strength) ∧
    List.Sorted (fun a b : InternalHit => b.strength ≤ a.strength)
      (find_internal_rhymes dict text maxResults).perfect ∧
    List.Sorted (fun a b : InternalHit => b.strength ≤ a.strength)
      (find_internal_rhymes dict text maxResults).near ∧
    List.Sorted (fun a b : InternalHit => b.strength ≤ a.strength)
      (find_internal_rhymes dict text maxResults).slant ∧
    (find_internal_rhymes dict text maxResults).perfect.length ≤ maxResults ∧
    (find_internal_rhymes dict text maxResults).near.length ≤ maxResults ∧
    (find_internal_rhymes dict text maxResults).slant.length ≤ maxResults := by
  refine ⟨fun h hm => mem_internalRhymeHits dict text h
    (mem_find_internal_rhymes dict text maxResults h hm), ?_, ?_, ?_, ?_, ?_, ?_⟩
  · rw [find_internal_rhymes_perfect]
    exact List.Pairwise.sublist (List.take_sublist _ _) (sortByStrengthDesc_sorted _)
  · rw [find_internal_rhymes_near]
    exact List.Pairwise.sublist (List.take_sublist _ _) (sortByStrengthDesc_sorted _)
  · rw [find_internal_rhymes_slant]
    exact List.Pairwise.sublist (List.take_sublist _ _) (sortByStrengthDesc_sorted _)
  · rw [find_internal_rhymes_perfect]
    exact List.length_take_le _ _
  · rw [find_internal_rhymes_near]
    exact List.length_take_le _ _
  · rw [find_internal_rhymes_slant]
    exact List.length_take_le _ _

/-- C9 witness: the hit reported for the line `cat bat` satisfies all the
per-hit invariants. -/
theorem C9_witness :
    hitCatBat.position1 < hitCatBat.position2 ∧
    hitCatBat.position2 < min 15 (pyWords ("cat bat")).length ∧
    2 ≤ ((pyStrip punctChars hitCatBat.word1).toLower).length ∧
    2 ≤ ((pyStrip punctChars hitCatBat.word2).toLower).length ∧
    (3:ℚ)/10 < hitCatBat.strength := by
  have hperf : is_perfect_rhyme dictCatBat ("cat") ("bat") = true := by
    with_unfolding_all decide
  have hstr : classify_internal_rhyme_strength dictCatBat ("cat") ("bat") = 1 := by
    unfold classify_internal_rhyme_strength
    rw [if_pos hperf]
  have hws : pyWords ("cat bat") = ["cat", "bat"] := by with_unfolding_all decide
  have htake : (pyWords ("cat bat")).take 15 = ["cat", "bat"] := by rw [hws]; rfl
  have hclean1 : (pyStrip punctChars ("cat")).toLower = ("cat") := by
    with_unfolding_all decide
  have hclean2 : (pyStrip punctChars ("bat")).toLower = ("bat") := by
    with_unfolding_all decide
  have hhit : internalHitAt dictCatBat ["cat", "bat"] 0 1 = some hitCatBat := by
    unfold internalHitAt
    rw [if_neg (by omega : ¬(1:Nat) ≤ 0)]
    simp only [List.getD_cons_zero, List.getD_cons_succ]
    rw [hclean1, hclean2, hstr]
    rw [if_neg (by decide : ¬(("cat" : String).length < 2 ∨ ("bat" : String).length < 2))]
    rw [if_pos (by with_unfolding_all decide : (3:ℚ)/10 < 1)]
    rfl
  have n00 : internalHitAt dictCatBat ["cat", "bat"] 0 0 = none := rfl
  have n10 : internalHitAt dictCatBat ["cat", "bat"] 1 0 = none := rfl
  have n11 : internalHitAt dictCatBat ["cat", "bat"] 1 1 = none := rfl
  have hhits : internalRhymeHits dictCatBat ("cat bat") = [hitCatBat] := by
    unfold internalRhymeHits
    simp only [htake]
    norm_num [List.range_succ]
    simp only [List.flatMap_cons, List.flatMap_nil, List.filterMap_cons, List.filterMap_nil,
      n00, n10, n11, hhit, List.append_nil, List.nil_append]
  refine (C9_internal_rhyme_invariants dictCatBat ("cat bat") 5).1 hitCatBat (Or.inl ?_)
  rw [find_internal_rhymes_perfect, hhits]
  rw [List.filter_cons_of_pos (by with_unfolding_all decide), List.filter_nil]
  unfold sortByStrengthDesc
  rw [List.mergeSort_singleton]
  decide

theorem mem_appendIfNew (l : List String) (y x : String) (h : x ∈ appendIfNew l y) :
    x ∈ l ∨ x = y := by
  unfold appendIfNew at h
  split_ifs at h with hy
  · exact Or.inl h
  · rcases List.mem_append.1 h with h | h
    · exact Or.inl h
    · exact Or.inr (List.mem_singleton.1 h)

theorem phraseEndingStep_inv (dict : String → List (List String))
    (target cand : String) (acc : PhraseRhymes) (k : Nat)
    (hk1 : 1 ≤ k) (hk : k ≤ min 3 (min (pyWords target).length (pyWords cand).length))
    (hne : ¬cand.toLower = target.toLower)
    (hinv : PhraseInv dict target acc) :
    PhraseInv dict target
      (phraseEndingStep dict (pyWords target) cand (pyWords cand) acc k) := by
  unfold phraseEndingStep
  by_cases heq : (phraseEnding (pyWords target) k).toLower
      = (phraseEnding (pyWords cand) k).toLower
  · rw [if_pos heq]; exact hinv
  · rw [if_neg heq]
    by_cases h8 : (4:ℚ)/5 ≤ score_phrase_similarity dict
        (phraseEnding (pyWords target) k) (phraseEnding (pyWords cand) k)
    · rw [if_pos h8]
      refine ⟨?_, hinv.2.1, hinv.2.2⟩
      intro c hc
      rcases mem_appendIfNew _ _ _ hc with hc | rfl
      · exact hinv.1 c hc
      · exact ⟨hne, ⟨k, hk1, hk, heq, h8, by simp⟩⟩
    · rw [if_neg h8]
      by_cases h6 : (3:ℚ)/5 ≤ score_phrase_similarity dict
          (phraseEnding (pyWords target) k) (phraseEnding (pyWords cand) k)
      · rw [if_pos h6]
        refine ⟨hinv.1, ?_, hinv.2.2⟩
        intro c hc
        rcases mem_appendIfNew _ _ _ hc with hc | rfl
        · exact hinv.2.1 c hc
        · refine ⟨hne, ⟨k, hk1, hk, heq, h6, ?_⟩⟩
          intro u hu
          simp only [Option.mem_def, Option.some.injEq] at hu
          rw [← hu]
          exact lt_of_not_le h8
      · rw [if_neg h6]
        by_cases h4 : (2:ℚ)/5 ≤ score_phrase_similarity dict
            (phraseEnding (pyWords target) k) (phraseEnding (pyWords cand) k)
        · rw [if_pos h4]
          refine ⟨hinv.1, hinv.2.1, ?_⟩
          intro c hc
          rcases mem_appendIfNew _ _ _ hc with hc | rfl
          · exact hinv.2.2 c hc
          · refine ⟨hne, ⟨k, hk1, hk, heq, h4, ?_⟩⟩
            intro u hu
            simp only [Option.mem_def, Option.some.injEq] at hu
            rw [← hu]
            exact lt_of_not_le h6
        · rw [if_neg h4]; exact hinv

theorem phraseEndingCandidate_inv (dict : String → List (List String))
    (target cand : String) (acc : PhraseRhymes)
    (hinv : PhraseInv dict target acc) :
    PhraseInv dict target
      (phraseEndingCandidate dict target (pyWords target) acc cand) := by
  unfold phraseEndingCandidate
  by_cases hne : cand.toLower = target.toLower
  · rw [if_pos hne]; exact hinv
  · rw [if_neg hne]
    have haux : ∀ (ks : List Nat),
        (∀ k0 ∈ ks, k0 + 1 ≤ min 3 (min (pyWords target).length (pyWords cand).length)) →
        ∀ a : PhraseRhymes, PhraseInv dict target a →
        PhraseInv dict target (ks.foldl
          (fun a k0 => phraseEndingStep dict (pyWords target) cand (pyWords cand) a (k0 + 1)) a) := by
      intro ks
      induction ks with
      | nil => exact fun _ a h => h
      | cons k0 ks ih =>
        intro hb a h
        simp only [List.foldl_cons]
        exact ih (fun x hx => hb x (List.mem_cons_of_mem _ hx)) _
          (phraseEndingStep_inv dict target cand a (k0 + 1) (by omega)
            (hb k0 (List.mem_cons_self _ _)) hne h)
    exact haux _ (fun k0 hk0 => by have := List.mem_range.1 hk0; omega) acc hinv

theorem find_phrase_ending_rhymes_inv (dict : String → List (List String))
    (target : String) (cands : List String) (maxR : Nat) :
    PhraseInv dict target (find_phrase_ending_rhymes dict target cands maxR) := by
  unfold find_phrase_ending_rhymes
  have hfold : ∀ (cs : List String) (a : PhraseRhymes), PhraseInv dict target a →
      PhraseInv dict target (cs.foldl (phraseEndingCandidate dict target (pyWords target)) a) := by
    intro cs
    induction cs with
    | nil => exact fun a h => h
    | cons c cs ih =>
      intro a h
      simp only [List.foldl_cons]
      exact ih _ (phraseEndingCandidate_inv dict target c a h)
  have hr := hfold cands ⟨[], [], []⟩ ⟨by simp, by simp, by simp⟩
  refine ⟨fun c hc => ?_, fun c hc => ?_, fun c hc => ?_⟩
  · exact hr.1 c (List.mem_of_mem_take hc)
  · exact hr.2.1 c (List.mem_of_mem_take hc)
  · exact hr.2.2 c (List.mem_of_mem_take hc)

/-- C5: for non-identical phrase endings the similarity score equals
`min(1, base + combined*0.5)` with `base = 0.5` for equal word counts and
`0.3` otherwise, and `combined` the single pair score when there is one
aligned pair, else `0.6 * last pair + 0.4 * mean(rest)`; and every candidate
bucketed by the phrase-ending scorer was put there by a score of at least
`0.8` (Perfect), in `[0.6, 0.8)` (Near), or in `[0.4, 0.6)` (Slant) for some
ending length — anything below `0.4` is discarded. -/
theorem C5_phrase_scoring :
    (∀ (dict : String → List (List String)) (p1 p2 : String),
      pyWords p1 ≠ [] → pyWords p2 ≠ [] →
      score_phrase_similarity dict p1 p2 =
        min 1 ((if (pyWords p1).length = (pyWords p2).length then (1:ℚ)/2 else 3/10) +
          (if (phraseWordScores dict (pyWords p1) (pyWords p2)).length = 1
           then (phraseWordScores dict (pyWords p1) (pyWords p2)).headD 0
           else (phraseWordScores dict (pyWords p1) (pyWords p2)).headD 0 * (3/5) +
             ((phraseWordScores dict (pyWords p1) (pyWords p2)).tail.sum /
               ((phraseWordScores dict (pyWords p1) (pyWords p2)).tail.length : ℚ)) * (2/5))
          * (1/2))) ∧
    (∀ (dict : String → List (List String)) (target : String)
        (cands : List String) (maxR : Nat) (c : String),
      (c ∈ (find_phrase_ending_rhymes dict target cands maxR).perfect →
        c.toLower ≠ target.toLower ∧ PhraseBand dict target c ((4:ℚ)/5) none) ∧
      (c ∈ (find_phrase_ending_rhymes dict target cands maxR).near →
        c.toLower ≠ target.toLower ∧ PhraseBand dict target c ((3:ℚ)/5) (some ((4:ℚ)/5))) ∧
      (c ∈ (find_phrase_ending_rhymes dict target cands maxR).slant →
        c.toLower ≠ target.toLower ∧ PhraseBand dict target c ((2:ℚ)/5) (some ((3:ℚ)/5)))) := by
  constructor
  · intro dict p1 p2 h1 h2
    have hlen : (phraseWordScores dict (pyWords p1) (pyWords p2)).length
        = min (pyWords p1).length (pyWords p2).length := by
      unfold phraseWordScores
      rw [List.length_map, List.length_range]
    have hne : phraseWordScores dict (pyWords p1) (pyWords p2) ≠ [] := by
      intro h
      rw [h] at hlen
      simp only [List.length_nil] at hlen
      rcases Nat.min_eq_zero_iff.1 hlen.symm with h0 | h0
      · exact h1 (List.eq_nil_of_length_eq_zero h0)
      · exact h2 (List.eq_nil_of_length_eq_zero h0)
    unfold score_phrase_similarity
    rcases hsc : phraseWordScores dict (pyWords p1) (pyWords p2) with _ | ⟨s, rest⟩
    · exact absurd hsc hne
    · rcases rest with _ | ⟨s2, t⟩
      · simp [hsc]
      · simp [hsc]
  · intro dict target cands maxR c
    have hinv := find_phrase_ending_rhymes_inv dict target cands maxR
    exact ⟨fun hc => hinv.1 c hc, fun hc => hinv.2.1 c hc, fun hc => hinv.2.2 c hc⟩

/-- C5 witness: the score formula evaluated at `cat`/`bat`, and the bucket
soundness applied to the candidate `the bat` against the target `big cat`. -/
theorem C5_witness :
    score_phrase_similarity dictCatBat ("cat") ("bat") =
      min 1 ((if (pyWords ("cat")).length = (pyWords ("bat")).length then (1:ℚ)/2 else 3/10) +
        (if (phraseWordScores dictCatBat (pyWords ("cat")) (pyWords ("bat"))).length = 1
         then (phraseWordScores dictCatBat (pyWords ("cat")) (pyWords ("bat"))).headD 0
         else (phraseWordScores dictCatBat (pyWords ("cat")) (pyWords ("bat"))).headD 0 * (3/5) +
           ((phraseWordScores dictCatBat (pyWords ("cat")) (pyWords ("bat"))).tail.sum /
             ((phraseWordScores dictCatBat (pyWords ("cat")) (pyWords ("bat"))).tail.length : ℚ))
             * (2/5)) * (1/2)) ∧
    (("the bat" : String).toLower ≠ ("big cat" : String).toLower ∧
      PhraseBand dictCatBat ("big cat") ("the bat") ((4:ℚ)/5) none) :=
  ⟨C5_phrase_scoring.1 dictCatBat ("cat") ("bat")
      (by with_unfolding_all decide) (by with_unfolding_all decide),
   (C5_phrase_scoring.2 dictCatBat ("big cat") ["the bat"] 7 ("the bat")).1
      (by with_unfolding_all decide)⟩

theorem baseFragEntry_ok (api : Api) (dict : String → List (List String))
    (phrase : String) (maxR : Nat) (span : Nat × Nat) :
    EntryOk (phrase, baseFragEntry api dict phrase maxR span) := by
  intro e he
  unfold baseFragEntry at he
  simp only [] at he
  rcases he with he | he | he | he | he | he
  · simpa using (List.mem_filter.1 he).2
  · simpa using (List.mem_filter.1 he).2
  · simpa using (List.mem_filter.1 he).2
  · cases he
  · cases he
  · cases he

theorem dictInsert_ok (l : List (String × FragEntry)) (k : String) (v : FragEntry)
    (hl : ∀ kv ∈ l, EntryOk kv) (hv : EntryOk (k, v)) :
    ∀ kv ∈ dictInsert l k v, EntryOk kv := by
  intro kv hkv
  unfold dictInsert at hkv
  split_ifs at hkv with hany
  · rcases List.mem_map.1 hkv with ⟨kv', hkv', heq⟩
    by_cases hk : kv'.1 = k
    · rw [if_pos hk] at heq
      rw [← heq]
      exact hv
    · rw [if_neg hk] at heq
      rw [← heq]
      exact hl kv' hkv'
  · rcases List.mem_append.1 hkv with h | h
    · exact hl kv h
    · rw [List.mem_singleton.1 h]
      exact hv

theorem dictUpdate_ok (l : List (String × FragEntry)) (k : String)
    (f : FragEntry → FragEntry)
    (hl : ∀ kv ∈ l, EntryOk kv)
    (hf : ∀ e : FragEntry, EntryOk (k, e) → EntryOk (k, f e)) :
    ∀ kv ∈ dictUpdate l k f, EntryOk kv := by
  intro kv hkv
  unfold dictUpdate at hkv
  rcases List.mem_map.1 hkv with ⟨kv', hkv', heq⟩
  obtain ⟨a, b⟩ := kv'
  by_cases hk : a = k
  · rw [if_pos hk] at heq
    rw [← heq]
    subst hk
    exact hf b (hl (a, b) hkv')
  · rw [if_neg hk] at heq
    rw [← heq]
    exact hl (a, b) hkv'

theorem analyzeBaseFold_ok (api : Api) (dict : String → List (List String))
    (maxR : Nat) :
    ∀ (ngrams : List (Nat × Nat × String)) (acc : List (String × FragEntry)),
    (∀ kv ∈ acc, EntryOk kv) →
    ∀ kv ∈ ngrams.foldl (fun acc sne =>
        dictInsert acc sne.2.2 (baseFragEntry api dict sne.2.2 maxR (sne.1, sne.2.1))) acc,
    EntryOk kv := by
  intro ngrams
  induction ngrams with
  | nil => exact fun acc h => h
  | cons sne rest ih =>
    intro acc h
    simp only [List.foldl_cons]
    exact ih _ (dictInsert_ok _ _ _ h (baseFragEntry_ok api dict _ maxR _))

theorem addMultiFold_ok (dict : String → List (List String)) (maxR : Nat)
    (mw : List String) :
    ∀ (ps : List String) (acc : List (String × FragEntry)),
    (∀ kv ∈ acc, EntryOk kv) →
    ∀ kv ∈ ps.foldl (fun acc phrase =>
        let pr := find_phrase_ending_rhymes dict phrase mw maxR
        dictUpdate acc phrase (fun e =>
          { e with
            phrasePerfect := if pr.perfect ≠ [] then pr.perfect else e.phrasePerfect
            phraseNear := if pr.near ≠ [] then pr.near else e.phraseNear
            phraseSlant := if pr.slant ≠ [] then pr.slant else e.phraseSlant })) acc,
    EntryOk kv := by
  intro ps
  induction ps with
  | nil => exact fun acc h => h
  | cons p rest ih =>
    intro acc h
    simp only [List.foldl_cons]
    refine ih _ (dictUpdate_ok _ _ _ h ?_)
    intro e he e' he'
    have hinv := find_phrase_ending_rhymes_inv dict p mw maxR
    simp only [] at he'
    rcases he' with h1 | h2 | h3 | h4 | h5 | h6
    · exact he e' (Or.inl h1)
    · exact he e' (Or.inr (Or.inl h2))
    · exact he e' (Or.inr (Or.inr (Or.inl h3)))
    · split_ifs at h4
      · exact (hinv.1 e' h4).1
      · exact he e' (Or.inr (Or.inr (Or.inr (Or.inl h4))))
    · split_ifs at h5
      · exact (hinv.2.1 e' h5).1
      · exact he e' (Or.inr (Or.inr (Or.inr (Or.inr (Or.inl h5)))))
    · split_ifs at h6
      · exact (hinv.2.2 e' h6).1
      · exact he e' (Or.inr (Or.inr (Or.inr (Or.inr (Or.inr h6)))))

theorem add_multi_word_phrase_rhymes_ok (dict : String → List (List String))
    (results : List (String × FragEntry)) (maxR : Nat)
    (h : ∀ kv ∈ results, EntryOk kv) :
    ∀ kv ∈ add_multi_word_phrase_rhymes dict results maxR, EntryOk kv := by
  unfold add_multi_word_phrase_rhymes
  exact addMultiFold_ok dict maxR _ _ results h

theorem mem_sort_results_by_base_word (l : List (String × FragEntry))
    (kv : String × FragEntry) :
    kv ∈ sort_results_by_base_word l ↔ kv ∈ l := List.mem_mergeSort

/-- C7: in the output of `analyze_bar`, no entry of any rhyme bucket of a
fragment (perfect, near, slant, or the phrase sub-buckets) equals the
fragment's own text case-insensitively. -/
theorem C7_no_self_rhymes (api : Api) (dict : String → List (List String))
    (bar : String) (maxR ngramMax : Nat) (phrase : String) (entry : FragEntry)
    (hmem : (phrase, entry) ∈ (analyze_bar api dict bar maxR ngramMax).1) :
    ∀ e : String,
      (e ∈ entry.perfect ∨ e ∈ entry.near ∨ e ∈ entry.slant ∨
       e ∈ entry.phrasePerfect ∨ e ∈ entry.phraseNear ∨ e ∈ entry.phraseSlant) →
      e.toLower ≠ phrase.toLower := by
  suffices h : EntryOk (phrase, entry) from h
  unfold analyze_bar at hmem
  by_cases hw : pyWords bar = []
  · rw [if_pos hw] at hmem
    simp at hmem
  · rw [if_neg hw] at hmem
    simp only [] at hmem
    have h1 := (mem_sort_results_by_base_word _ _).1 hmem
    exact add_multi_word_phrase_rhymes_ok dict _ maxR
      (analyzeBaseFold_ok api dict maxR _ [] (by simp)) _ h1

/-- C7 witness: for the bar `cat` with a provider whose slant feed returns
`dog`, the (unique) fragment entry's slant bucket holds `dog`, and indeed
`dog` differs from `cat` case-insensitively. -/
theorem C7_witness : ("dog" : String).toLower ≠ ("cat" : String).toLower :=
  C7_no_self_rhymes apiSlantDog dict0 ("cat") 7 3 ("cat") entryCatSlantDog
    (by with_unfolding_all decide) ("dog")
    (Or.inr (Or.inr (Or.inl (by decide))))

end RhymesLikeDimes
